import Mathlib

/-!
Verification of the Raft core and key-value layer of this repository
(src/raft/raft.go and src/kvraft/server.go).

The Go code is shallowly embedded: every RPC handler, reply handler and
periodic-loop body becomes a pure Lean function on an explicit state record.
Go `int` becomes `Int` (log indices are "phantom"/logical and can be `-1`;
`lastIncludedIndex` is initialised to `-1`).  Go slices of log entries become
`List LogEntry`; an opaque command (`interface{}`) becomes `Option Int` with
`none` playing the role of Go's `nil` (the dummy entry's command).  The
persister is modelled by a counter `persistCount` bumped at every
`persist()` / `SaveStateAndSnapshot` call; timers, goroutine scheduling and
the RPC transport are outside the embedded state, so each dispatched RPC's
captured arguments appear as explicit function parameters (exactly the values
the Go closures capture).
-/

namespace MIT6824

/-- Role of a replica, `rf.state` in raft.go (strings "Leader" etc. there). -/
inductive Role where
  | follower
  | candidate
  | leader
deriving DecidableEq, Repr

/-- `noVote = -1` from raft.go. -/
def noVote : Int := -1

/-- `logEntry` from raft.go: a term and an opaque command (`none` = Go `nil`,
the command of the dummy entry installed by `Make`). -/
structure LogEntry where
  term : Int
  command : Option Int
deriving DecidableEq, Repr

/-- The fields of the `Raft` struct from raft.go that the handlers read or
write (locks, timers, channels and the peer list are not data; the number of
peers and `me` are kept since the loops range over them).  `persistCount`
counts calls to `persist()` / `SaveStateAndSnapshot`. -/
structure RaftState where
  state : Role
  currTerm : Int
  votedFor : Int
  log : List LogEntry
  commitIndex : Int
  lastApplied : Int
  nextIndex : List Int
  matchIndex : List Int
  votesReceived : Int
  majorityVotes : Int
  numPeers : Nat
  me : Nat
  lastIncludedIndex : Int
  lastIncludedTerm : Int
  persistCount : Nat
deriving DecidableEq, Repr

/-- Indexing a Go slice of log entries at an actual (local) position.
All uses below are guarded so the position is in range, as in the source. -/
def logGet (l : List LogEntry) (i : Int) : LogEntry :=
  l.getD i.toNat ⟨0, none⟩

/-- `rf.p2a`: phantom (logical) index to actual (local) position. -/
def p2a (rf : RaftState) (phantom : Int) : Int :=
  phantom - rf.lastIncludedIndex - 1

/-- `rf.a2p`: actual (local) position to phantom (logical) index. -/
def a2p (rf : RaftState) (actual : Int) : Int :=
  actual + rf.lastIncludedIndex + 1

/-- `rf.getLastLogTerm`. -/
def getLastLogTerm (rf : RaftState) : Int :=
  if 0 < rf.log.length then (logGet rf.log ((rf.log.length : Int) - 1)).term
  else rf.lastIncludedTerm

/-- `rf.getLastLogIndex` (a phantom index). -/
def getLastLogIndex (rf : RaftState) : Int :=
  if 0 < rf.log.length then a2p rf ((rf.log.length : Int) - 1)
  else rf.lastIncludedIndex

/-- `rf.getLogLen` (a phantom length). -/
def getLogLen (rf : RaftState) : Int :=
  getLastLogIndex rf + 1

/-- `rf.index2term`: term of the entry at a phantom index
(`lastIncludedTerm` when the index is the snapshot boundary). -/
def index2term (rf : RaftState) (phantomIndex : Int) : Int :=
  if phantomIndex > rf.lastIncludedIndex then (logGet rf.log (p2a rf phantomIndex)).term
  else rf.lastIncludedTerm

/-- `rf.revertToFollowerIfOutOfTerm`: adopt a strictly greater term, clear
`votedFor`, become follower, persist. -/
def revertToFollowerIfOutOfTerm (rf : RaftState) (receivedTerm : Int) : RaftState :=
  if receivedTerm > rf.currTerm then
    { rf with currTerm := receivedTerm, votedFor := noVote, state := Role.follower,
              persistCount := rf.persistCount + 1 }
  else rf

/-- `RequestVoteArgs` from raft.go. -/
structure RequestVoteArgs where
  Term : Int
  CandidateID : Int
  LastLogIndex : Int
  LastLogTerm : Int
deriving DecidableEq, Repr

/-- `RequestVoteReply` from raft.go. -/
structure RequestVoteReply where
  Term : Int
  VoteGranted : Bool
deriving DecidableEq, Repr

/-- The `RequestVote` RPC handler (raft.go lines 204-229).  Note the source
has no `args.Term < rf.currTerm` early rejection: the grant condition is
exactly `(votedFor == noVote || votedFor == args.CandidateID) && upToDate`. -/
def RequestVote (rf0 : RaftState) (args : RequestVoteArgs) :
    RaftState × RequestVoteReply :=
  let rf := revertToFollowerIfOutOfTerm rf0 args.Term
  let myLastLogIndex := getLastLogIndex rf
  let myLastLogTerm := getLastLogTerm rf
  let upToDate :=
    args.LastLogTerm > myLastLogTerm ∨
      (args.LastLogTerm = myLastLogTerm ∧ args.LastLogIndex ≥ myLastLogIndex)
  if (rf.votedFor = noVote ∨ rf.votedFor = args.CandidateID) ∧ upToDate then
    ({ rf with votedFor := args.CandidateID, persistCount := rf.persistCount + 1 },
      { Term := rf.currTerm, VoteGranted := true })
  else
    (rf, { Term := rf.currTerm, VoteGranted := false })

/-- The body of the RequestVote-reply closure inside `periodicElection`
(raft.go lines 274-302), run when a reply arrives.  `term` is the term the
closure captured at dispatch.  The source increments `votesReceived` for any
grant while still a candidate and only then compares the tally with
`majorityVotes`, requiring `term == rf.currTerm` at that comparison alone. -/
def handleRequestVoteReply (rf0 : RaftState) (term : Int)
    (reply : RequestVoteReply) : RaftState :=
  let rf := revertToFollowerIfOutOfTerm rf0 reply.Term
  if rf.state ≠ Role.candidate then rf
  else if reply.VoteGranted then
    let rf1 := { rf with votesReceived := rf.votesReceived + 1 }
    if rf1.votesReceived ≥ rf1.majorityVotes ∧ term = rf1.currTerm then
      { rf1 with state := Role.leader,
                 nextIndex := List.replicate rf1.numPeers (getLogLen rf1),
                 matchIndex := List.replicate rf1.numPeers 0 }
    else rf1
  else rf

/-- `AppendEntriesArgs` from raft.go. -/
structure AppendEntriesArgs where
  Term : Int
  LeaderID : Int
  PrevLogIndex : Int
  PrevLogTerm : Int
  Entries : List LogEntry
  LeaderCommit : Int
deriving DecidableEq, Repr

/-- `AppendEntriesReply` from raft.go; `XTerm`, `XIndex`, `XLen` are the fast
rollback hints (zero-valued when the handler does not fill them). -/
structure AppendEntriesReply where
  Term : Int
  Success : Bool
  XTerm : Int
  XIndex : Int
  XLen : Int
deriving DecidableEq, Repr

/-- The XIndex scan of the `AppendEntries` handler (raft.go lines 382-388):
walk down from position `i` while the entry's command is non-nil, recording
`a2p i` as long as the term equals `XTerm`, stopping at the first other term.
`fuel` is `i + 1` so the loop also covers the `i ≥ 0` guard; `acc` is the
current value of `reply.XIndex` (zero-initialised by Go). -/
def xIndexLoop (log : List LogEntry) (lii xterm : Int) : Nat → Int → Int
  | 0, acc => acc
  | Nat.succ k, acc =>
    if (logGet log (k : Int)).command ≠ none then
      if (logGet log (k : Int)).term = xterm then
        xIndexLoop log lii xterm k ((k : Int) + lii + 1)
      else acc
    else acc

/-- Steps 1-2 of the `AppendEntries` handler after the consistency check
(raft.go lines 400-421): walk `entries` from `currIndex`; stop when the local
log runs out or the position is inside the snapshot, then append the rest at
the end of the log; at the first term conflict truncate the log there and
append the rest.  Returns the new log and whether the truncating `persist()`
of line 413 ran.  `lii` is the follower's `lastIncludedIndex`, so the phantom
log length `getLogLen` is `lii + log.length + 1`. -/
def aeMerge (lii : Int) (log : List LogEntry) (currIndex : Int)
    (entries : List LogEntry) : List LogEntry × Bool :=
  match entries with
  | [] => (log, false)
  | e :: rest =>
    if currIndex - lii - 1 < 0 ∨ currIndex ≥ lii + (log.length : Int) + 1 then
      (log ++ (e :: rest), false)
    else if (logGet log (currIndex - lii - 1)).term ≠ e.term then
      (log.take (currIndex - lii - 1).toNat ++ (e :: rest), true)
    else
      aeMerge lii log (currIndex + 1) rest

/-- The `AppendEntries` RPC handler (raft.go lines 330-431). -/
def AppendEntries (rf0 : RaftState) (args : AppendEntriesArgs) :
    RaftState × AppendEntriesReply :=
  let rf := revertToFollowerIfOutOfTerm rf0 args.Term
  if args.Term < rf.currTerm then
    (rf, { Term := rf.currTerm, Success := false, XTerm := 0, XIndex := 0, XLen := 0 })
  else if getLogLen rf ≤ args.PrevLogIndex ∨
      (0 ≤ p2a rf args.PrevLogIndex ∧
        (logGet rf.log (p2a rf args.PrevLogIndex)).term ≠ args.PrevLogTerm) then
    if getLogLen rf ≤ args.PrevLogIndex then
      (rf, { Term := rf.currTerm, Success := false, XTerm := -1, XIndex := -1,
             XLen := getLogLen rf })
    else
      let xterm := (logGet rf.log (p2a rf args.PrevLogIndex)).term
      let xindex := xIndexLoop rf.log rf.lastIncludedIndex xterm
        (p2a rf args.PrevLogIndex + 1).toNat 0
      (rf, { Term := rf.currTerm, Success := false, XTerm := xterm, XIndex := xindex,
             XLen := getLogLen rf })
  else
    let merged := aeMerge rf.lastIncludedIndex rf.log (args.PrevLogIndex + 1) args.Entries
    let rf1 := { rf with log := merged.1,
                         persistCount := rf.persistCount + (if merged.2 then 2 else 1) }
    let rf2 :=
      if args.LeaderCommit > rf1.commitIndex then
        { rf1 with commitIndex := min args.LeaderCommit (getLastLogIndex rf1) }
      else rf1
    (rf2, { Term := rf.currTerm, Success := true, XTerm := 0, XIndex := 0, XLen := 0 })

/-- The arguments `sendAppendEntriesToPeers` builds for a peer on the
AppendEntries branch, i.e. when `matchIndex[server] ≥ lastIncludedIndex`
(raft.go lines 470-483): `prevLogIndex = matchIndex[server]`, `prevLogTerm`
from `index2term`, entries the log suffix after `prevLogIndex`. -/
def makeAppendEntriesArgs (rf : RaftState) (server : Nat) : AppendEntriesArgs :=
  let prevLogIndex := rf.matchIndex.getD server 0
  { Term := rf.currTerm, LeaderID := (rf.me : Int), PrevLogIndex := prevLogIndex,
    PrevLogTerm := index2term rf prevLogIndex,
    Entries := rf.log.drop (p2a rf prevLogIndex + 1).toNat,
    LeaderCommit := rf.commitIndex }

/-- `replicatedCount` of `tryCommit` (raft.go lines 578-587): 1 for the
leader itself plus every other peer whose `matchIndex` is at least `N`. -/
def replicatedCount (rf : RaftState) (N : Int) : Nat :=
  1 + ((List.range rf.numPeers).filter
        (fun i => decide (i ≠ rf.me) && decide (rf.matchIndex.getD i 0 ≥ N))).length

/-- The condition under which `tryCommit` commits `N` (raft.go lines 589-591):
a majority of peers replicated `N` and the entry at `N` carries `currTerm`. -/
def commitQualifies (rf : RaftState) (N : Int) : Prop :=
  rf.numPeers / 2 + 1 ≤ replicatedCount rf N ∧
    (logGet rf.log (p2a rf N)).term = rf.currTerm

instance (rf : RaftState) (N : Int) : Decidable (commitQualifies rf N) := by
  unfold commitQualifies; infer_instance

/-- The loop of `tryCommit` (raft.go lines 576-599): `N` runs from
`getLastLogIndex` down to `lastIncludedIndex + 1`; the first `N` with a
majority of `matchIndex ≥ N` and `log[N].Term == currTerm` becomes the new
`commitIndex` and the loop breaks.  `fuel` is `N - lastIncludedIndex`. -/
def tryCommitLoop (rf : RaftState) : Nat → RaftState
  | 0 => rf
  | Nat.succ f =>
    let N : Int := rf.lastIncludedIndex + (f : Int) + 1
    if commitQualifies rf N then { rf with commitIndex := N }
    else tryCommitLoop rf f

/-- `rf.tryCommit` (raft.go lines 576-599). -/
def tryCommit (rf : RaftState) : RaftState :=
  tryCommitLoop rf (getLastLogIndex rf - rf.lastIncludedIndex).toNat

/-- `InstallSnapshotArgs` from raft.go (the snapshot bytes `Data` are opaque
to the Raft layer and not modelled). -/
structure InstallSnapshotArgs where
  Term : Int
  LeaderID : Int
  LastIncludedIndex : Int
  LastIncludedTerm : Int
deriving DecidableEq, Repr

/-- `ApplyMsg` from raft.go.  A snapshot message has `CommandValid = false`
and carries the snapshot bytes (opaque, modelled as `none`); `CommandIndex`
and `CommandTerm` keep Go's zero values there. -/
structure ApplyMsg where
  CommandValid : Bool
  Command : Option Int
  CommandIndex : Int
  CommandTerm : Int
deriving DecidableEq, Repr

/-- The `InstallSnapshot` RPC handler (raft.go lines 613-650): returns the
new state, the reply term, and the messages pushed onto `applyCh`. -/
def InstallSnapshot (rf0 : RaftState) (args : InstallSnapshotArgs) :
    RaftState × Int × List ApplyMsg :=
  let rf := revertToFollowerIfOutOfTerm rf0 args.Term
  if args.Term < rf.currTerm then (rf, rf.currTerm, [])
  else if args.LastIncludedIndex < a2p rf 0 then (rf, rf.currTerm, [])
  else
    let lastIncludedIndexActual := p2a rf args.LastIncludedIndex
    let rf1 := { rf with
      log := rf.log.drop (min (lastIncludedIndexActual + 1) (rf.log.length : Int)).toNat,
      lastIncludedIndex := args.LastIncludedIndex,
      lastIncludedTerm := args.LastIncludedTerm,
      persistCount := rf.persistCount + 1 }
    let rf2 := { rf1 with lastApplied := max rf1.lastApplied rf1.lastIncludedIndex,
                          commitIndex := max rf1.commitIndex rf1.lastIncludedIndex }
    (rf2, rf.currTerm, [{ CommandValid := false, Command := none,
                          CommandIndex := 0, CommandTerm := 0 }])

/-- The leader-side foundIndex scan of the fast rollback (raft.go lines
524-532): from the last log position downward while the command is non-nil,
stop with `a2p i` at the first entry whose term equals `XTerm`, or with `-1`
on the first term below `XTerm`.  `fuel` is `i + 1`. -/
def findIndexLoop (log : List LogEntry) (lii xterm : Int) : Nat → Int
  | 0 => -1
  | Nat.succ k =>
    if (logGet log (k : Int)).command ≠ none then
      if (logGet log (k : Int)).term = xterm then (k : Int) + lii + 1
      else if (logGet log (k : Int)).term < xterm then -1
      else findIndexLoop log lii xterm k
    else -1

/-- The body of the AppendEntries-reply closure inside
`sendAppendEntriesToPeers` (raft.go lines 491-543).  `term`, `prevLogIndex`
and `numEntries` are the values the closure captured at dispatch;
`numEntries = len(args.Entries)`. -/
def handleAppendEntriesReply (rf0 : RaftState) (term : Int) (server : Nat)
    (prevLogIndex : Int) (numEntries : Nat) (reply : AppendEntriesReply) :
    RaftState :=
  let rf := revertToFollowerIfOutOfTerm rf0 reply.Term
  if term ≠ rf.currTerm ∨ rf.state ≠ Role.leader then rf
  else if reply.Success then
    tryCommit { rf with
      nextIndex := rf.nextIndex.set server (prevLogIndex + (numEntries : Int) + 1),
      matchIndex := rf.matchIndex.set server (prevLogIndex + (numEntries : Int)) }
  else
    let ni :=
      if reply.XTerm = -1 ∧ reply.XIndex = -1 then reply.XLen
      else
        let foundIndex := findIndexLoop rf.log rf.lastIncludedIndex reply.XTerm
          (p2a rf (getLastLogIndex rf) + 1).toNat
        if foundIndex = -1 then reply.XIndex else foundIndex
    { rf with nextIndex := rf.nextIndex.set server ni,
              matchIndex := rf.matchIndex.set server (ni - 1) }

/-- The body of the InstallSnapshot-reply closure inside
`sendAppendEntriesToPeers` (raft.go lines 556-569).  `term` and
`lastIncludedIndex` are the values captured at dispatch; the source reads
only `lastIncludedIndex` — the captured `term` is never compared with
`rf.currTerm`, the guard is `rf.state != leader` alone. -/
def handleInstallSnapshotReply (rf0 : RaftState) (term : Int) (server : Nat)
    (lastIncludedIndex : Int) (replyTerm : Int) : RaftState :=
  let rf := revertToFollowerIfOutOfTerm rf0 replyTerm
  if rf.state ≠ Role.leader then rf
  else
    tryCommit { rf with
      nextIndex := rf.nextIndex.set server (lastIncludedIndex + 1),
      matchIndex := rf.matchIndex.set server lastIncludedIndex }

/-- `rf.Start` (raft.go lines 749-774): the returned triple is
`(index, term, isLeader)`; a leader appends `{Term: currTerm, Command:
command}` and persists, any other role changes nothing.  The immediate
`sendAppendEntriesToPeers` only dispatches RPCs (and stamps a timer), so it
moves none of the modelled fields. -/
def Start (rf : RaftState) (command : Option Int) :
    RaftState × Int × Int × Bool :=
  let index := getLogLen rf
  let term := rf.currTerm
  if rf.state = Role.leader then
    ({ rf with log := rf.log ++ [⟨rf.currTerm, command⟩],
               persistCount := rf.persistCount + 1 },
      index, term, true)
  else (rf, index, term, false)

/-- One pass of the inner while loop of `rf.applyCommitted` (raft.go lines
714-724): while `lastApplied < commitIndex`, increment `lastApplied` and
collect an `ApplyMsg` for it.  `fuel` is `commitIndex - lastApplied`. -/
def applyBatchLoop (rf : RaftState) : Nat → RaftState × List ApplyMsg
  | 0 => (rf, [])
  | Nat.succ f =>
    let la := rf.lastApplied + 1
    let e := logGet rf.log (p2a rf la)
    let rest := applyBatchLoop { rf with lastApplied := la } f
    (rest.1, { CommandValid := true, Command := e.command,
               CommandIndex := la, CommandTerm := e.term } :: rest.2)

/-- One wake-up of `rf.applyCommitted` after the condition-variable wait
(raft.go lines 705-731): collect the messages for every index in
`(lastApplied, commitIndex]` under the lock, then send them in order. -/
def applyBatch (rf : RaftState) : RaftState × List ApplyMsg :=
  applyBatchLoop rf (rf.commitIndex - rf.lastApplied).toNat

/-- The state `Make` builds for a 3-peer cluster (raft.go lines 776-829)
before `readPersist`: one dummy entry, `lastIncludedIndex = -1`,
`majorityVotes = len(peers)/2+1`. -/
def initState : RaftState :=
  { state := Role.follower, currTerm := 0, votedFor := noVote,
    log := [⟨0, none⟩], commitIndex := 0, lastApplied := 0,
    nextIndex := [], matchIndex := [], votesReceived := 0,
    majorityVotes := 2, numPeers := 3, me := 0,
    lastIncludedIndex := -1, lastIncludedTerm := 0, persistCount := 0 }

/-! ## Key-value layer (src/kvraft/server.go) -/

/-- Operation type constants from server.go. -/
def GET : String := "Get"

/-- Operation type constant `PUT`. -/
def PUT : String := "Put"

/-- Operation type constant `APPEND`. -/
def APPEND : String := "Append"

/-- `Op` from server.go: the command the KV layer proposes through Raft. -/
structure Op where
  type : String
  key : String
  value : String
  cid : Int
  seq : Int
deriving DecidableEq, Repr

/-- The fields of `KVServer` the apply loop reads or writes.  Go maps read
absent keys as zero values, so `store` is a partial map (absent reads as ""
in the `Append` case), `clientSeqMap` a total function defaulting to 0 and
`applyResMap` a membership predicate defaulting to `false`. -/
structure KVState where
  store : String → Option String
  clientSeqMap : Int → Int
  applyResMap : Int → Int → Bool
  lastAppliedIndex : Int
  lastAppliedTerm : Int

/-- The `switch op.Type` of `applyCommitted` (server.go lines 161-168):
`Get` touches nothing, `Put` overwrites, `Append` concatenates onto the
current value (missing key reads as the empty string). -/
def applyStore (store : String → Option String) (op : Op) :
    String → Option String :=
  if op.type = GET then store
  else if op.type = PUT then
    fun k => if k = op.key then some op.value else store k
  else if op.type = APPEND then
    fun k => if k = op.key then some ((store k).getD "" ++ op.value) else store k
  else store

/-- One committed-command iteration of `kv.applyCommitted` (server.go lines
150-181), for a message with `CommandValid = true`: when
`op.Seq > clientSeqMap[op.Cid]` the command executes, `lastAppliedIndex/Term`
and `clientSeqMap` advance, the wait-result `(cid, seq)` is recorded,
`reduceState` deletes this client's results below `seq`, and the condition
variable broadcasts (the returned `Bool`); otherwise the iteration only logs
and the state is untouched.  (`snapshotCheck` talks to the persister and is
outside the modelled state.) -/
def applyCommand (kv : KVState) (op : Op) (cmdIndex cmdTerm : Int) :
    KVState × Bool :=
  if op.seq > kv.clientSeqMap op.cid then
    ({ store := applyStore kv.store op,
       lastAppliedIndex := cmdIndex,
       lastAppliedTerm := cmdTerm,
       clientSeqMap := fun c => if c = op.cid then op.seq else kv.clientSeqMap c,
       applyResMap := fun c s =>
         if c = op.cid then
           if s = op.seq then true
           else if s < op.seq then false
           else kv.applyResMap c s
         else kv.applyResMap c s }, true)
  else (kv, false)

/-- The KV state `StartKVServer` builds (server.go lines 258-269). -/
def initKV : KVState :=
  { store := fun _ => none, clientSeqMap := fun _ => 0,
    applyResMap := fun _ _ => false, lastAppliedIndex := 0, lastAppliedTerm := 0 }

/-! ## Concrete replica states used to evaluate the handlers -/

/-- A 3-peer leader of term 1 holding entries 1..12, all of term 1 with
pairwise distinct commands, fresh from election (`matchIndex` all 0,
`nextIndex` all `getLogLen`), never snapshotted. -/
def rfLeaderA : RaftState :=
  { initState with
    state := Role.leader, currTerm := 1,
    log := ⟨0, none⟩ :: (List.range 12).map (fun k => ⟨1, some ((k : Int) + 1)⟩),
    nextIndex := [13, 13, 13], matchIndex := [0, 0, 0] }

/-- A follower of term 1 that has applied and snapshotted through logical
index 5 and still holds the leader's entries 6 and 7 in its log suffix. -/
def rfFollowerA : RaftState :=
  { initState with
    currTerm := 1, votedFor := 0,
    log := [⟨1, some 6⟩, ⟨1, some 7⟩],
    commitIndex := 7, lastApplied := 7,
    lastIncludedIndex := 5, lastIncludedTerm := 1 }

/-- A replica at term 5 that has not voted and whose log is the initial
dummy-only log. -/
def rfTermFive : RaftState := { initState with currTerm := 5 }

/-- A stale-term RequestVote (term 3 against a term-5 replica) whose
candidate log is at least as up-to-date. -/
def argsStaleVote : RequestVoteArgs :=
  { Term := 3, CandidateID := 2, LastLogIndex := 4, LastLogTerm := 0 }

/-- A 5-peer candidate in term 11 holding only its own vote. -/
def rfCandidate11 : RaftState :=
  { initState with
    state := Role.candidate, currTerm := 11, votedFor := 0,
    votesReceived := 1, majorityVotes := 3, numPeers := 5 }

/-- Replaying a list of (dispatch term, reply) RequestVote replies through
the reply closure, in arrival order. -/
def tallyVoteReplies (rf : RaftState) (events : List (Int × RequestVoteReply)) :
    RaftState :=
  events.foldl (fun s e => handleRequestVoteReply s e.1 e.2) rf

/-- A 3-peer term-2 leader with `commitIndex = 3` whose freshly reset
`matchIndex` records only index 1 as replicated on peer 1. -/
def rfLeaderB : RaftState :=
  { initState with
    state := Role.leader, currTerm := 2,
    log := [⟨0, none⟩, ⟨2, some 1⟩, ⟨2, some 2⟩, ⟨2, some 3⟩],
    commitIndex := 3, nextIndex := [4, 4, 4], matchIndex := [0, 1, 0] }

/-- A 3-peer leader of term 7 with empty progress. -/
def rfLeaderC : RaftState :=
  { initState with
    state := Role.leader, currTerm := 7,
    nextIndex := [1, 1, 1], matchIndex := [0, 0, 0] }

/-- A follower of term 2 snapshotted through logical index 5. -/
def rfSnapFollower : RaftState :=
  { initState with
    currTerm := 2, votedFor := 0,
    log := [⟨1, some 6⟩], commitIndex := 6, lastApplied := 6,
    lastIncludedIndex := 5, lastIncludedTerm := 1 }

/-- An InstallSnapshot whose `LastIncludedIndex` equals the follower's
current `lastIncludedIndex` (same snapshot boundary, same term). -/
def argsSnapEqual : InstallSnapshotArgs :=
  { Term := 2, LeaderID := 1, LastIncludedIndex := 5, LastIncludedTerm := 1 }

/-- A never-snapshotted follower of term 2 whose entry at logical index 2
has term 1. -/
def rfSnapFollowerB : RaftState :=
  { initState with
    currTerm := 2, votedFor := 0,
    log := [⟨0, none⟩, ⟨1, some 1⟩, ⟨1, some 2⟩, ⟨2, some 3⟩] }

/-- An InstallSnapshot through logical index 2 whose `LastIncludedTerm` (5)
differs from the term (1) the follower holds at that index. -/
def argsSnapMismatch : InstallSnapshotArgs :=
  { Term := 2, LeaderID := 1, LastIncludedIndex := 2, LastIncludedTerm := 5 }

/-- A KV replica that has already applied client 1's sequence number 5. -/
def kvSeqFive : KVState :=
  { initKV with clientSeqMap := fun c => if c = 1 then 5 else 0 }

/-- A retried Put from client 1 with the already-superseded sequence
number 3. -/
def opDupPut : Op := { type := PUT, key := "k", value := "v", cid := 1, seq := 3 }

/-- The follower's state and reply after processing the AppendEntries the
leader `rfLeaderA` dispatches to it (peer 1). -/
def followerAfterA : RaftState × AppendEntriesReply :=
  AppendEntries rfFollowerA (makeAppendEntriesArgs rfLeaderA 1)

/-- Two RequestVote reply events: a grant whose RPC was dispatched at
term 9, then a grant dispatched at term 11. -/
def staleVoteEvents : List (Int × RequestVoteReply) :=
  [(9, { Term := 9, VoteGranted := true }), (11, { Term := 11, VoteGranted := true })]

/-! ## Helper lemmas -/

/-- `revertToFollowerIfOutOfTerm` touches only `currTerm`, `votedFor`,
`state` and the persist counter. -/
theorem revert_preserves (rf : RaftState) (t : Int) :
    (revertToFollowerIfOutOfTerm rf t).nextIndex = rf.nextIndex
    ∧ (revertToFollowerIfOutOfTerm rf t).matchIndex = rf.matchIndex
    ∧ (revertToFollowerIfOutOfTerm rf t).commitIndex = rf.commitIndex
    ∧ (revertToFollowerIfOutOfTerm rf t).log = rf.log
    ∧ (revertToFollowerIfOutOfTerm rf t).lastIncludedIndex = rf.lastIncludedIndex
    ∧ (revertToFollowerIfOutOfTerm rf t).lastIncludedTerm = rf.lastIncludedTerm
    ∧ (revertToFollowerIfOutOfTerm rf t).lastApplied = rf.lastApplied := by
  unfold revertToFollowerIfOutOfTerm
  split <;> simp

/-- The phantom log length is `lastIncludedIndex + len(log) + 1` whether or
not the suffix is empty. -/
theorem getLogLen_eq (rf : RaftState) :
    getLogLen rf = rf.lastIncludedIndex + (rf.log.length : Int) + 1 := by
  unfold getLogLen getLastLogIndex a2p
  split
  · omega
  · omega

/-- The last log index never lies below the snapshot boundary. -/
theorem lii_le_lastLogIndex (rf : RaftState) :
    rf.lastIncludedIndex ≤ getLastLogIndex rf := by
  unfold getLastLogIndex a2p
  split
  · omega
  · omega

/-- Go's `log[min(x, len(log)):]` equals `log[x:]` once both are clamped to
the list length, as `List.drop` clamps. -/
theorem drop_min_toNat (l : List LogEntry) (x : Int) :
    l.drop (min x (l.length : Int)).toNat = l.drop x.toNat := by
  rcases le_total x (l.length : Int) with h | h
  · rw [min_eq_left h]
  · rw [min_eq_right h]
    rw [List.drop_eq_nil_of_le (by simp), List.drop_eq_nil_of_le (by omega)]

/-- The scan of `tryCommit` over `N ∈ (lastIncludedIndex, lastIncludedIndex + fuel]`
either changes nothing or installs the greatest `N` in that range satisfying
`commitQualifies` as the new `commitIndex`. -/
theorem tryCommitLoop_spec (rf : RaftState) (f : Nat) :
    tryCommitLoop rf f = rf
    ∨ ∃ N : Int, rf.lastIncludedIndex < N ∧ N ≤ rf.lastIncludedIndex + (f : Int)
        ∧ commitQualifies rf N
        ∧ tryCommitLoop rf f = { rf with commitIndex := N }
        ∧ ∀ M : Int, N < M → M ≤ rf.lastIncludedIndex + (f : Int) →
            ¬ commitQualifies rf M := by
  induction f with
  | zero => exact Or.inl rfl
  | succ g ih =>
    by_cases hq : commitQualifies rf (rf.lastIncludedIndex + (g : Int) + 1)
    · refine Or.inr ⟨rf.lastIncludedIndex + (g : Int) + 1, by omega, by push_cast; omega,
        hq, ?_, ?_⟩
      · simp only [tryCommitLoop, if_pos hq]
      · intro M h1 h2 _
        push_cast at h2
        omega
    · have step : tryCommitLoop rf (g + 1) = tryCommitLoop rf g := by
        simp only [tryCommitLoop, if_neg hq]
      rcases ih with h | ⟨N, hN1, hN2, hN3, hN4, hN5⟩
      · exact Or.inl (step.trans h)
      · refine Or.inr ⟨N, hN1, by push_cast; omega, hN3, step.trans hN4, ?_⟩
        intro M h1 h2
        by_cases hM : M ≤ rf.lastIncludedIndex + (g : Int)
        · exact hN5 M h1 hM
        · have hMe : M = rf.lastIncludedIndex + (g : Int) + 1 := by
            push_cast at h2
            omega
          rw [hMe]
          exact hq

/-- One collection pass of the apply loop emits exactly the command indices
`lastApplied + 1, …, lastApplied + fuel`, in order, and leaves `lastApplied`
advanced by `fuel`. -/
theorem applyBatchLoop_spec (f : Nat) : ∀ (rf : RaftState),
    ((applyBatchLoop rf f).2.map ApplyMsg.CommandIndex
        = (List.range f).map (fun k : Nat => rf.lastApplied + 1 + (k : Int)))
    ∧ (applyBatchLoop rf f).1.lastApplied = rf.lastApplied + (f : Int) := by
  induction f with
  | zero => intro rf; simp [applyBatchLoop]
  | succ g ih =>
    intro rf
    obtain ⟨h1, h2⟩ := ih { rf with lastApplied := rf.lastApplied + 1 }
    have hr : (List.range (g + 1)).map (fun k : Nat => rf.lastApplied + 1 + (k : Int))
        = (rf.lastApplied + 1)
          :: (List.range g).map (fun k : Nat => rf.lastApplied + 1 + 1 + (k : Int)) := by
      rw [List.range_succ_eq_map, List.map_cons, List.map_map]
      refine congrArg₂ _ (by simp) (List.map_congr_left ?_)
      intro a _
      simp only [Function.comp_apply, Nat.succ_eq_add_one]
      push_cast
      ring
    constructor
    · show (rf.lastApplied + 1)
          :: (applyBatchLoop { rf with lastApplied := rf.lastApplied + 1 } g).2.map
              ApplyMsg.CommandIndex = _
      rw [hr, h1]
    · show (applyBatchLoop { rf with lastApplied := rf.lastApplied + 1 } g).1.lastApplied = _
      rw [h2]
      show rf.lastApplied + 1 + (g : Int) = _
      push_cast
      ring

/-! ## The claims -/

/-- C1: Log Matching fails on the code.  A fresh 3-peer leader of term 1
(never snapshotted, `matchIndex` reset to 0 by its election) replicates to a
follower that snapshotted through index 5 and holds the leader's own entries
6 and 7 — before the step the two logs agree at every index both hold.  The
dispatched `AppendEntries` (`prevLogIndex = matchIndex[1] = 0`) passes the
consistency check vacuously (`p2a 0 < 0`), the merge loop breaks at once and
appends all twelve entries at the end of the follower's log, so the follower
now stores the leader's entry 1 at logical index 8: both replicas hold an
entry at index 8 with equal terms but different commands, and the handler
reports success. -/
theorem appendEntries_violates_log_matching :
    rfLeaderA.matchIndex.getD 1 0 ≥ rfLeaderA.lastIncludedIndex
    ∧ (∀ i ∈ [6, 7],
        logGet rfFollowerA.log (p2a rfFollowerA i) = logGet rfLeaderA.log (p2a rfLeaderA i))
    ∧ followerAfterA.2.Success = true
    ∧ 8 ≤ getLastLogIndex followerAfterA.1 ∧ 8 ≤ getLastLogIndex rfLeaderA
    ∧ (logGet followerAfterA.1.log (p2a followerAfterA.1 8)).term
        = (logGet rfLeaderA.log (p2a rfLeaderA 8)).term
    ∧ (logGet followerAfterA.1.log (p2a followerAfterA.1 8)).command
        ≠ (logGet rfLeaderA.log (p2a rfLeaderA 8)).command := by
  decide

/-- C2: the `RequestVote` handler has no `args.Term < currTerm` rejection:
a replica at term 5 that has not voted grants its vote (and persists the
overwritten `votedFor`) to a candidate whose request carries term 3. -/
theorem requestVote_grants_stale_term :
    argsStaleVote.Term < rfTermFive.currTerm
    ∧ (RequestVote rfTermFive argsStaleVote).2.VoteGranted = true
    ∧ (RequestVote rfTermFive argsStaleVote).1.votedFor = argsStaleVote.CandidateID
    ∧ (RequestVote rfTermFive argsStaleVote).1.persistCount
        = rfTermFive.persistCount + 1 := by
  decide

/-- C3: the vote tally counts grants from earlier-term dispatches.  A 5-peer
candidate in term 11 holding only its own vote (`votesReceived = 1`,
`majorityVotes = 3`) processes a grant dispatched at term 9 and then a grant
dispatched at term 11, and becomes Leader of term 11 — although only one of
the two processed grants (plus its own vote, 2 < 3) was cast for term 11. -/
theorem election_counts_stale_votes :
    (tallyVoteReplies rfCandidate11 staleVoteEvents).state = Role.leader
    ∧ (tallyVoteReplies rfCandidate11 staleVoteEvents).currTerm = 11
    ∧ rfCandidate11.votesReceived = 1
    ∧ ((staleVoteEvents.countP (fun e => decide (e.1 = 11) && e.2.VoteGranted) : Int) + 1
        < rfCandidate11.majorityVotes) := by
  decide

/-- C4 counterexample: `tryCommit` can lower `commitIndex`.  A 3-peer term-2
leader with `commitIndex = 3` whose post-election `matchIndex` records only
index 1 on peer 1 scans down past `commitIndex` (the loop's lower bound is
`lastIncludedIndex`, not `commitIndex`) and sets `commitIndex := 1`. -/
theorem tryCommit_decreases_commitIndex :
    rfLeaderB.commitIndex = 3
    ∧ (tryCommit rfLeaderB).commitIndex = 1
    ∧ (tryCommit rfLeaderB).commitIndex < rfLeaderB.commitIndex := by
  decide

/-- C4 (amended): `tryCommit` either changes nothing or sets `commitIndex`
to the greatest `N` with `lastIncludedIndex < N ≤ lastLogIndex` such that a
strict majority of replicas (counting the leader) have `matchIndex ≥ N` and
`log[N].term = currTerm`; the examined range is bounded below by
`lastIncludedIndex` rather than `commitIndex`, so the assignment can lower
`commitIndex`. -/
theorem tryCommit_spec (rf : RaftState) :
    tryCommit rf = rf
    ∨ ∃ N : Int, rf.lastIncludedIndex < N ∧ N ≤ getLastLogIndex rf
        ∧ commitQualifies rf N
        ∧ tryCommit rf = { rf with commitIndex := N }
        ∧ ∀ M : Int, N < M → M ≤ getLastLogIndex rf → ¬ commitQualifies rf M := by
  have hb := lii_le_lastLogIndex rf
  have hf : rf.lastIncludedIndex
      + ((getLastLogIndex rf - rf.lastIncludedIndex).toNat : Int)
      = getLastLogIndex rf := by omega
  have h := tryCommitLoop_spec rf (getLastLogIndex rf - rf.lastIncludedIndex).toNat
  rw [hf] at h
  exact h

/-- C5 counterexample: the apply loop's duplicate branch records nothing.
A replica that already applied sequence number 5 of client 1 receives the
committed retry with sequence number 3: the store stays untouched as claimed,
but no wait-result is recorded for `(1, 3)` and the condition variable is not
broadcast (the returned flag is `false`), contrary to the claim. -/
theorem applyCommand_duplicate_drops_result :
    opDupPut.seq ≤ kvSeqFive.clientSeqMap opDupPut.cid
    ∧ (applyCommand kvSeqFive opDupPut 10 2).2 = false
    ∧ (applyCommand kvSeqFive opDupPut 10 2).1.applyResMap 1 3 = false
    ∧ (applyCommand kvSeqFive opDupPut 10 2).1.store "k" = none := by
  decide

/-- C5 (amended): a committed command with `seq ≤ clientSeq[cid]` leaves the
entire KV state unchanged — store untouched, no wait-result recorded and no
waiter signalled; an outstanding waiter on `(cid, seq)` can complete only
through the result recorded when `seq` was first applied (which
`reduceState` retains for the client's newest sequence number). -/
theorem applyCommand_duplicate (kv : KVState) (op : Op) (cmdIndex cmdTerm : Int)
    (h : op.seq ≤ kv.clientSeqMap op.cid) :
    applyCommand kv op cmdIndex cmdTerm = (kv, false) := by
  simp only [applyCommand]
  rw [if_neg (not_lt.2 h)]

/-- C5 witness: the amended duplicate rule evaluated at the concrete replica
that already applied sequence 5 of client 1. -/
theorem applyCommand_duplicate_witness :
    applyCommand kvSeqFive opDupPut 10 2 = (kvSeqFive, false) :=
  applyCommand_duplicate kvSeqFive opDupPut 10 2 (by decide)

/-- C6 counterexample: the InstallSnapshot-reply closure has no dispatch-term
guard.  A term-7 leader processes an InstallSnapshot reply whose dispatch
term was 5 (and whose reply term 5 does not depose it): despite
`5 ≠ currTerm` it still writes `matchIndex[1] := 3` and
`nextIndex[1] := 4`. -/
theorem installSnapshotReply_ignores_dispatch_term :
    (5 : Int) ≠ rfLeaderC.currTerm
    ∧ rfLeaderC.state = Role.leader
    ∧ (handleInstallSnapshotReply rfLeaderC 5 1 3 5).matchIndex = [0, 3, 0]
    ∧ (handleInstallSnapshotReply rfLeaderC 5 1 3 5).nextIndex = [1, 4, 1] := by
  decide

/-- C6 (amended): the stale-reply guard holds as claimed for AppendEntries
replies — whenever the dispatch term differs from the (post-revert) current
term or the replica is no longer Leader, `nextIndex`, `matchIndex` and
`commitIndex` are untouched — but InstallSnapshot replies are discarded only
when the replica is no longer Leader; a reply from an older dispatch term
processed while again Leader does update `nextIndex`/`matchIndex`. -/
theorem stale_reply_guard :
    (∀ (rf : RaftState) (term : Int) (server : Nat) (prevLogIndex : Int)
        (numEntries : Nat) (reply : AppendEntriesReply),
      (term ≠ (revertToFollowerIfOutOfTerm rf reply.Term).currTerm ∨
        (revertToFollowerIfOutOfTerm rf reply.Term).state ≠ Role.leader) →
      (handleAppendEntriesReply rf term server prevLogIndex numEntries reply).nextIndex
          = rf.nextIndex
      ∧ (handleAppendEntriesReply rf term server prevLogIndex numEntries reply).matchIndex
          = rf.matchIndex
      ∧ (handleAppendEntriesReply rf term server prevLogIndex numEntries reply).commitIndex
          = rf.commitIndex)
  ∧ (∀ (rf : RaftState) (term : Int) (server : Nat) (lastIncludedIndex replyTerm : Int),
      (revertToFollowerIfOutOfTerm rf replyTerm).state ≠ Role.leader →
      handleInstallSnapshotReply rf term server lastIncludedIndex replyTerm
        = revertToFollowerIfOutOfTerm rf replyTerm) := by
  constructor
  · intro rf term server prevLogIndex numEntries reply h
    have e : handleAppendEntriesReply rf term server prevLogIndex numEntries reply
        = revertToFollowerIfOutOfTerm rf reply.Term := by
      simp only [handleAppendEntriesReply]
      rw [if_pos h]
    rw [e]
    obtain ⟨a, b, c, _⟩ := revert_preserves rf reply.Term
    exact ⟨a, b, c⟩
  · intro rf term server lastIncludedIndex replyTerm h
    simp only [handleInstallSnapshotReply]
    rw [if_pos h]

/-- C7 counterexample: an `InstallSnapshot` whose `LastIncludedIndex` equals
the follower's current `lastIncludedIndex` (with `args.Term = currTerm`) is
dropped — the state is returned unchanged and nothing reaches the apply
stream — because the staleness test is `args.LastIncludedIndex < a2p 0`,
i.e. `≤ lastIncludedIndex`, not the claimed strict `<`. -/
theorem installSnapshot_drops_equal_index :
    argsSnapEqual.LastIncludedIndex = rfSnapFollower.lastIncludedIndex
    ∧ rfSnapFollower.currTerm ≤ argsSnapEqual.Term
    ∧ (InstallSnapshot rfSnapFollower argsSnapEqual).1 = rfSnapFollower
    ∧ (InstallSnapshot rfSnapFollower argsSnapEqual).2.2 = [] := by
  decide

/-- C7 (amended): for `args.Term ≥ currTerm` the handler drops the snapshot
— log, `lastIncludedIndex`, `lastIncludedTerm`, `commitIndex`, `lastApplied`
unchanged and nothing forwarded to the state machine — exactly when
`args.LastIncludedIndex ≤ lastIncludedIndex`: equality is dropped too.
(A strictly greater `args.Term` is still adopted and persisted on a drop.) -/
theorem installSnapshot_drop_iff (rf : RaftState) (args : InstallSnapshotArgs)
    (h : rf.currTerm ≤ args.Term) :
    ((InstallSnapshot rf args).1.log = rf.log
     ∧ (InstallSnapshot rf args).1.lastIncludedIndex = rf.lastIncludedIndex
     ∧ (InstallSnapshot rf args).1.lastIncludedTerm = rf.lastIncludedTerm
     ∧ (InstallSnapshot rf args).1.commitIndex = rf.commitIndex
     ∧ (InstallSnapshot rf args).1.lastApplied = rf.lastApplied
     ∧ (InstallSnapshot rf args).2.2 = [])
    ↔ args.LastIncludedIndex ≤ rf.lastIncludedIndex := by
  obtain ⟨_, _, hc, hlog, hlii, hlit, hla⟩ := revert_preserves rf args.Term
  have hterm : ¬ args.Term < (revertToFollowerIfOutOfTerm rf args.Term).currTerm := by
    unfold revertToFollowerIfOutOfTerm
    split
    · simp
    · simp
      omega
  by_cases hs : args.LastIncludedIndex < a2p (revertToFollowerIfOutOfTerm rf args.Term) 0
  · have e : InstallSnapshot rf args
        = (revertToFollowerIfOutOfTerm rf args.Term,
           (revertToFollowerIfOutOfTerm rf args.Term).currTerm, []) := by
      simp only [InstallSnapshot]
      rw [if_neg hterm, if_pos hs]
    rw [e]
    simp only [hlog, hlii, hlit, hc, hla, true_and, and_true]
    unfold a2p at hs
    rw [hlii] at hs
    constructor
    · intro _
      omega
    · intro _
      trivial
  · have e2 : (InstallSnapshot rf args).1.lastIncludedIndex = args.LastIncludedIndex := by
      simp only [InstallSnapshot]
      rw [if_neg hterm, if_neg hs]
    unfold a2p at hs
    rw [hlii] at hs
    constructor
    · intro hall
      exfalso
      have hx := hall.2.1
      rw [e2] at hx
      omega
    · intro hle
      exfalso
      omega

/-- C7 witness: the drop test evaluated at the equal-boundary snapshot. -/
theorem installSnapshot_drop_iff_witness :
    ((InstallSnapshot rfSnapFollower argsSnapEqual).1.log = rfSnapFollower.log
     ∧ (InstallSnapshot rfSnapFollower argsSnapEqual).1.lastIncludedIndex
         = rfSnapFollower.lastIncludedIndex
     ∧ (InstallSnapshot rfSnapFollower argsSnapEqual).1.lastIncludedTerm
         = rfSnapFollower.lastIncludedTerm
     ∧ (InstallSnapshot rfSnapFollower argsSnapEqual).1.commitIndex
         = rfSnapFollower.commitIndex
     ∧ (InstallSnapshot rfSnapFollower argsSnapEqual).1.lastApplied
         = rfSnapFollower.lastApplied
     ∧ (InstallSnapshot rfSnapFollower argsSnapEqual).2.2 = [])
    ↔ argsSnapEqual.LastIncludedIndex ≤ rfSnapFollower.lastIncludedIndex :=
  installSnapshot_drop_iff rfSnapFollower argsSnapEqual (by decide)

/-- C8 counterexample: an accepted snapshot keeps the log suffix past
`args.LastIncludedIndex` even though the entry at that index carries a term
(1) different from `args.LastIncludedTerm` (5) — the claimed term check does
not exist, and the log is not cleared. -/
theorem installSnapshot_ignores_term_mismatch :
    rfSnapFollowerB.currTerm ≤ argsSnapMismatch.Term
    ∧ rfSnapFollowerB.lastIncludedIndex < argsSnapMismatch.LastIncludedIndex
    ∧ (logGet rfSnapFollowerB.log (p2a rfSnapFollowerB argsSnapMismatch.LastIncludedIndex)).term
        ≠ argsSnapMismatch.LastIncludedTerm
    ∧ (InstallSnapshot rfSnapFollowerB argsSnapMismatch).1.log = [⟨2, some 3⟩]
    ∧ (InstallSnapshot rfSnapFollowerB argsSnapMismatch).1.log ≠ [] := by
  decide

/-- C8 (amended): an accepted `InstallSnapshot` (`args.Term ≥ currTerm`,
`args.LastIncludedIndex > lastIncludedIndex`) discards exactly the entries
up to and including `args.LastIncludedIndex` and unconditionally keeps any
later entries — no term comparison; the log ends up empty only when it had
no entries past that index — and installs `args`'s boundary. -/
theorem installSnapshot_truncate (rf : RaftState) (args : InstallSnapshotArgs)
    (h1 : rf.currTerm ≤ args.Term) (h2 : rf.lastIncludedIndex < args.LastIncludedIndex) :
    (InstallSnapshot rf args).1.log
      = rf.log.drop (args.LastIncludedIndex - rf.lastIncludedIndex).toNat
    ∧ (InstallSnapshot rf args).1.lastIncludedIndex = args.LastIncludedIndex
    ∧ (InstallSnapshot rf args).1.lastIncludedTerm = args.LastIncludedTerm
    ∧ (InstallSnapshot rf args).2.2 ≠ [] := by
  obtain ⟨_, _, _, hlog, hlii, _, _⟩ := revert_preserves rf args.Term
  have hterm : ¬ args.Term < (revertToFollowerIfOutOfTerm rf args.Term).currTerm := by
    unfold revertToFollowerIfOutOfTerm
    split
    · simp
    · simp
      omega
  have hs : ¬ args.LastIncludedIndex < a2p (revertToFollowerIfOutOfTerm rf args.Term) 0 := by
    unfold a2p
    rw [hlii]
    omega
  refine ⟨?_, ?_, ?_, ?_⟩
  · simp only [InstallSnapshot]
    rw [if_neg hterm, if_neg hs]
    show (revertToFollowerIfOutOfTerm rf args.Term).log.drop _ = _
    unfold p2a
    rw [hlog, hlii, drop_min_toNat]
    congr 1
    omega
  · simp only [InstallSnapshot]
    rw [if_neg hterm, if_neg hs]
  · simp only [InstallSnapshot]
    rw [if_neg hterm, if_neg hs]
  · simp only [InstallSnapshot]
    rw [if_neg hterm, if_neg hs]
    simp

/-- C8 witness: the truncation rule evaluated at the term-mismatch
snapshot. -/
theorem installSnapshot_truncate_witness :
    (InstallSnapshot rfSnapFollowerB argsSnapMismatch).1.log
      = rfSnapFollowerB.log.drop
          (argsSnapMismatch.LastIncludedIndex - rfSnapFollowerB.lastIncludedIndex).toNat
    ∧ (InstallSnapshot rfSnapFollowerB argsSnapMismatch).1.lastIncludedIndex
        = argsSnapMismatch.LastIncludedIndex
    ∧ (InstallSnapshot rfSnapFollowerB argsSnapMismatch).1.lastIncludedTerm
        = argsSnapMismatch.LastIncludedTerm
    ∧ (InstallSnapshot rfSnapFollowerB argsSnapMismatch).2.2 ≠ [] :=
  installSnapshot_truncate rfSnapFollowerB argsSnapMismatch (by decide) (by decide)

/-- C9: one wake-up of the apply loop emits exactly the command indices
`lastApplied + 1, …, commitIndex` — consecutively, strictly increasing, no
gaps, no duplicates — and advances `lastApplied` to `commitIndex`; the next
batch therefore continues at `commitIndex + 1`, so contiguity of the emitted
stream breaks only where an `InstallSnapshot` moved `lastApplied`. -/
theorem apply_stream_contiguous (rf : RaftState) :
    ((applyBatch rf).2.map ApplyMsg.CommandIndex
        = (List.range (rf.commitIndex - rf.lastApplied).toNat).map
            (fun k : Nat => rf.lastApplied + 1 + (k : Int)))
    ∧ (applyBatch rf).1.lastApplied
        = rf.lastApplied + ((rf.commitIndex - rf.lastApplied).toNat : Int)
    ∧ List.Chain' (fun a b : Int => a < b) ((applyBatch rf).2.map ApplyMsg.CommandIndex)
    ∧ (rf.lastApplied < rf.commitIndex →
        (applyBatch rf).1.lastApplied = rf.commitIndex) := by
  obtain ⟨h1, h2⟩ := applyBatchLoop_spec (rf.commitIndex - rf.lastApplied).toNat rf
  unfold applyBatch
  refine ⟨h1, h2, ?_, ?_⟩
  · rw [h1]
    exact ((List.pairwise_lt_range _).map _ (fun a b hab => by omega)).chain'
  · intro hlt
    rw [h2]
    omega

/-- C10: `Start` on a non-Leader returns `isLeader = false` with the state
untouched; on a Leader it appends exactly the one entry
`{Term: currTerm, Command: command}`, whose logical index is the returned
index = previous last log index + 1, bumps the persist counter, and changes
no other field (in particular no earlier log entry). -/
theorem start_spec (rf : RaftState) (command : Option Int) :
    ((Start rf command).2.1 = getLastLogIndex rf + 1
      ∧ (Start rf command).2.2.1 = rf.currTerm)
    ∧ (rf.state ≠ Role.leader → Start rf command = (rf, getLogLen rf, rf.currTerm, false))
    ∧ (rf.state = Role.leader →
        (Start rf command).1.log = rf.log ++ [⟨rf.currTerm, command⟩]
        ∧ (Start rf command).2.2.2 = true
        ∧ a2p (Start rf command).1 (((Start rf command).1.log.length : Int) - 1)
            = (Start rf command).2.1
        ∧ (Start rf command).1.currTerm = rf.currTerm
        ∧ (Start rf command).1.state = rf.state
        ∧ (Start rf command).1.votedFor = rf.votedFor
        ∧ (Start rf command).1.commitIndex = rf.commitIndex
        ∧ (Start rf command).1.lastApplied = rf.lastApplied
        ∧ (Start rf command).1.lastIncludedIndex = rf.lastIncludedIndex
        ∧ (Start rf command).1.lastIncludedTerm = rf.lastIncludedTerm
        ∧ (Start rf command).1.nextIndex = rf.nextIndex
        ∧ (Start rf command).1.matchIndex = rf.matchIndex
        ∧ (Start rf command).1.persistCount = rf.persistCount + 1) := by
  by_cases hl : rf.state = Role.leader
  · have hs : Start rf command
        = ({ rf with
             log := rf.log ++ [⟨rf.currTerm, command⟩],
             persistCount := rf.persistCount + 1 },
           getLogLen rf, rf.currTerm, true) := by
      simp only [Start, if_pos hl]
    rw [hs]
    refine ⟨⟨rfl, rfl⟩, fun h => absurd hl h, fun _ => ?_⟩
    refine ⟨rfl, rfl, ?_, rfl, rfl, rfl, rfl, rfl, rfl, rfl, rfl, rfl, rfl⟩
    show a2p _ _ = getLogLen rf
    unfold a2p
    rw [getLogLen_eq]
    simp only [List.length_append, List.length_cons, List.length_nil]
    push_cast
    omega
  · have hs : Start rf command = (rf, getLogLen rf, rf.currTerm, false) := by
      simp only [Start, if_neg hl]
    rw [hs]
    exact ⟨⟨rfl, rfl⟩, fun _ => rfl, fun h => absurd h hl⟩

end MIT6824
